import Mathlib

/-!
Verification of the bidirectional note-reconciliation core of the
supernote-apple-note-unifier repository, as a shallow embedding.

Conventions of the embedding:
* The SQLite `note_state` table (src/unifier/state.py) is a list of rows
  keyed by `apple_note_id` (the PRIMARY KEY); `INSERT OR REPLACE` replaces
  the row with the same key, and `UPDATE ... WHERE apple_note_id = ?`
  modifies only rows that exist (zero rows matched means no change).
* The `originals` table is an append-only list.
* Content and hash values are strings.  The concrete fingerprint
  (`sha256(...).hexdigest()[:16]`) and the pure text converters
  (markdown/HTML transforms, spec section 6 external collaborators) are
  parameters of the model, collected in the `Conv` structure: every claim
  under scrutiny depends on them only through equality of their outputs.
* The Swift-bridge subprocess transport is a deterministic oracle
  (`Transport`); a `none` result models a nonzero exit status, which the
  Python code surfaces as a caught exception.
* The Supernote filesystem is a list of entries (path, content, mtime).
* Executions additionally return a trace of `Event`s (transport commands
  issued and originals-ledger inserts) to state ordering properties.
-/

namespace Unifier

/-- Direction of the last sync operation (state.py `SyncDirection`). -/
inductive SyncDirection where
  | toSupernote
  | fromSupernote
deriving DecidableEq

/-- One row of the `note_state` table (state.py `NoteState` / schema).
`last_processed` is modelled as a natural-number timestamp. -/
structure NoteRow where
  apple_note_id : String
  apple_folder_path : String
  content_hash : String
  last_processed : Nat
  output_path : String
  generator_type : String
  success : Bool
  error : Option String
  supernote_content_hash : Option String
  supernote_modified_at : Option Nat
  last_sync_direction : Option SyncDirection
  apple_written_hash : Option String
  is_locked : Bool
deriving DecidableEq

/-- One row of the append-only `originals` table (state.py schema). -/
structure OriginalRow where
  apple_note_id : String
  backup_folder_note_id : Option String
  original_content : String
  original_html : Option String
  backed_up_at : Nat
  reason : String
deriving DecidableEq

/-- The persistent state store (state.py `StateDatabase`): the `note_state`
table and the `originals` table.  The `sync_runs` table is audit-only and
not modelled. -/
structure StateDB where
  note_state : List NoteRow
  originals : List OriginalRow
deriving DecidableEq

/-- `get_note_state`: SELECT by primary key. -/
def getNoteState (db : StateDB) (id : String) : Option NoteRow :=
  db.note_state.find? (fun r => r.apple_note_id == id)

/-- Suffix test over the character list (`str.endswith`), stated this way
so that concrete executions reduce definitionally. -/
def strEndsWith (s suffix : String) : Bool :=
  suffix.data.isSuffixOf s.data

/-- Prefix test over the character list (`str.startswith`). -/
def strStartsWith (s pre : String) : Bool :=
  pre.data.isPrefixOf s.data

/-- ASCII lower-casing over the character list (`str.lower`). -/
def strToLower (s : String) : String :=
  String.mk (s.data.map Char.toLower)

/-- Splitting at `/` over the character list (`str.split("/")`). -/
def strSplitOnSlash (s : String) : List String :=
  (s.data.splitOn '/').map String.mk

/-- Dropping a prefix of `n` characters (`s[n:]`). -/
def strDrop (s : String) (n : Nat) : String :=
  String.mk (s.data.drop n)

/-- Dropping a suffix of `n` characters (`s[:-n]`). -/
def strDropRight (s : String) (n : Nat) : String :=
  String.mk (s.data.take (s.data.length - n))

/-- Keeping a prefix of `n` characters (`s[:n]`). -/
def strTake (s : String) (n : Nat) : String :=
  String.mk (s.data.take n)

/-- Dropping trailing characters satisfying a predicate. -/
def listDropRightWhile (p : Char → Bool) (l : List Char) : List Char :=
  (l.reverse.dropWhile p).reverse

/-- SQLite `output_path LIKE '%.txt'`; LIKE is ASCII-case-insensitive. -/
def likeTxt (p : String) : Bool :=
  strEndsWith (strToLower p) ".txt"

/-- `get_all_txt_states`: rows with a `.txt` output path and `success = 1`. -/
def getAllTxtStates (db : StateDB) : List NoteRow :=
  db.note_state.filter (fun r => likeTxt r.output_path && r.success)

/-- `needs_update`: true if no record exists or the stored content hash
differs from the current one. -/
def needsUpdate (db : StateDB) (id h : String) : Bool :=
  match getNoteState db id with
  | none => true
  | some st => st.content_hash != h

/-- `INSERT OR REPLACE` into `note_state`: replace the row with the same
primary key if present, otherwise append. -/
def upsertRow (db : StateDB) (r : NoteRow) : StateDB :=
  if db.note_state.any (fun x => x.apple_note_id == r.apple_note_id) then
    { db with note_state :=
        db.note_state.map (fun x => if x.apple_note_id == r.apple_note_id then r else x) }
  else
    { db with note_state := db.note_state ++ [r] }

/-- `record_success`: upsert listing the columns of the source INSERT;
`supernote_modified_at` and `apple_written_hash` are not in the column
list, so the replaced row gets NULL for them. -/
def recordSuccess (db : StateDB) (id folder h : String) (now : Nat)
    (outPath gen : String) (snHash : Option String) (dir : SyncDirection)
    (locked : Bool) : StateDB :=
  upsertRow db
    { apple_note_id := id
      apple_folder_path := folder
      content_hash := h
      last_processed := now
      output_path := outPath
      generator_type := gen
      success := true
      error := none
      supernote_content_hash := snHash
      supernote_modified_at := none
      last_sync_direction := some dir
      apple_written_hash := none
      is_locked := locked }

/-- `record_failure`: upsert with `output_path = ''`, `success = 0` and the
error message; the bidirectional columns are not in the column list, so
the replaced row gets NULL for them (`is_locked` gets its column default 0). -/
def recordFailure (db : StateDB) (id folder h : String) (now : Nat)
    (gen err : String) : StateDB :=
  upsertRow db
    { apple_note_id := id
      apple_folder_path := folder
      content_hash := h
      last_processed := now
      output_path := ""
      generator_type := gen
      success := false
      error := some err
      supernote_content_hash := none
      supernote_modified_at := none
      last_sync_direction := none
      apple_written_hash := none
      is_locked := false }

/-- `update_supernote_state`: SQL UPDATE of the Supernote-side fingerprint
columns; a missing row is left missing (zero rows matched). -/
def updateSupernoteState (db : StateDB) (id snHash : String) (mtime : Nat) : StateDB :=
  { db with note_state :=
      db.note_state.map (fun r =>
        if r.apple_note_id == id then
          { r with supernote_content_hash := some snHash
                   supernote_modified_at := some mtime
                   last_sync_direction := some SyncDirection.toSupernote }
        else r) }

/-- `update_apple_written_hash`: SQL UPDATE of the echo-guard hash;
a missing row is left missing (zero rows matched). -/
def updateAppleWrittenHash (db : StateDB) (id h : String) : StateDB :=
  { db with note_state :=
      db.note_state.map (fun r =>
        if r.apple_note_id == id then
          { r with apple_written_hash := some h
                   last_sync_direction := some SyncDirection.fromSupernote }
        else r) }

/-- `update_content_hash_after_reverse_sync`: SQL UPDATE overwriting the
stored Apple-content hash; a missing row is left missing. -/
def updateContentHashAfterReverseSync (db : StateDB) (id h : String) : StateDB :=
  { db with note_state :=
      db.note_state.map (fun r =>
        if r.apple_note_id == id then
          { r with content_hash := h
                   last_sync_direction := some SyncDirection.fromSupernote }
        else r) }

/-- `record_original`: append one row to the `originals` ledger. -/
def recordOriginal (db : StateDB) (id content : String) (html : Option String)
    (reason : String) (now : Nat) (backupNoteId : Option String) : StateDB :=
  { db with originals :=
      db.originals ++ [{ apple_note_id := id
                         backup_folder_note_id := backupNoteId
                         original_content := content
                         original_html := html
                         backed_up_at := now
                         reason := reason }] }

/-- `is_echo_from_apple`: an unknown note or an absent stored hash compares
unequal in Python (`None == str` is `False`). -/
def isEchoFromApple (db : StateDB) (id h : String) : Bool :=
  match getNoteState db id with
  | none => false
  | some st =>
    match st.apple_written_hash with
    | none => false
    | some w => w == h

/-- `is_echo_from_supernote`: same shape over `supernote_content_hash`. -/
def isEchoFromSupernote (db : StateDB) (id h : String) : Bool :=
  match getNoteState db id with
  | none => false
  | some st =>
    match st.supernote_content_hash with
    | none => false
    | some w => w == h

/-- Well-formedness of the store: `apple_note_id` is the PRIMARY KEY of
`note_state`, so ids are pairwise distinct. -/
def WFdb (db : StateDB) : Prop :=
  (db.note_state.map (fun r => r.apple_note_id)).Nodup

/-- Replacing every row carrying a present key and then searching for that
key finds the replacement. -/
theorem find?_map_replace (l : List NoteRow) (r : NoteRow)
    (h : l.any (fun x => x.apple_note_id == r.apple_note_id) = true) :
    (l.map (fun x => if x.apple_note_id == r.apple_note_id then r else x)).find?
      (fun x => x.apple_note_id == r.apple_note_id) = some r := by
  induction l with
  | nil => simp at h
  | cons x xs ih =>
    cases hx : (x.apple_note_id == r.apple_note_id) with
    | true =>
      simp [List.find?, hx]
    | false =>
      simp only [List.any_cons, hx, Bool.false_or] at h
      simp only [List.map_cons, hx, Bool.false_eq_true, if_false]
      rw [List.find?_cons_of_neg _ (by simp [hx])]
      exact ih h

/-- Appending a row whose key is absent and searching for that key finds the
appended row. -/
theorem find?_append_self (l : List NoteRow) (r : NoteRow)
    (h : l.any (fun x => x.apple_note_id == r.apple_note_id) = false) :
    (l ++ [r]).find? (fun x => x.apple_note_id == r.apple_note_id) = some r := by
  induction l with
  | nil => simp [List.find?]
  | cons x xs ih =>
    simp only [List.any_cons, Bool.or_eq_false_iff] at h
    simp only [List.cons_append]
    rw [List.find?_cons_of_neg _ (by simp [h.1])]
    exact ih h.2

/-- Looking up the key of a freshly upserted row returns that row. -/
theorem getNoteState_upsertRow (db : StateDB) (r : NoteRow) :
    getNoteState (upsertRow db r) r.apple_note_id = some r := by
  unfold getNoteState upsertRow
  cases h : db.note_state.any (fun x => x.apple_note_id == r.apple_note_id) with
  | true =>
    simp only [if_pos rfl, h]
    exact find?_map_replace db.note_state r h
  | false =>
    simp only [h, Bool.false_eq_true, if_false]
    exact find?_append_self db.note_state r h

/-- With pairwise-distinct keys, searching a list for a member's key finds
exactly that member. -/
theorem find?_eq_some_of_nodup_keys (l : List NoteRow) (st : NoteRow)
    (hnd : (l.map (fun r => r.apple_note_id)).Nodup) (hm : st ∈ l) :
    l.find? (fun r => r.apple_note_id == st.apple_note_id) = some st := by
  induction l with
  | nil => cases hm
  | cons x xs ih =>
    simp only [List.map_cons, List.nodup_cons] at hnd
    rcases List.mem_cons.mp hm with h | h
    · subst h
      simp [List.find?]
    · have hx : (x.apple_note_id == st.apple_note_id) = false := by
        cases hval : (x.apple_note_id == st.apple_note_id) with
        | false => rfl
        | true =>
          exfalso
          apply hnd.1
          have : x.apple_note_id = st.apple_note_id := by
            exact eq_of_beq hval
          rw [this]
          exact List.mem_map_of_mem _ h
      rw [List.find?_cons_of_neg _ (by simp [hx])]
      exact ih hnd.2 h

/-- In a well-formed store, every row is found under its own id. -/
theorem getNoteState_of_mem (db : StateDB) (hwf : WFdb db) (st : NoteRow)
    (hm : st ∈ db.note_state) : getNoteState db st.apple_note_id = some st :=
  find?_eq_some_of_nodup_keys db.note_state st hwf hm

/-- One file of the Supernote (Mirror) filesystem: absolute path, UTF-8
content, and mtime in epoch milliseconds. -/
structure FSEntry where
  path : String
  content : String
  mtimeMs : Nat
deriving DecidableEq

/-- File lookup by absolute path (`Path.exists` / `read_text` / `stat`). -/
def fsLookup (fs : List FSEntry) (p : String) : Option FSEntry :=
  fs.find? (fun e => e.path == p)

/-- Writing a file: overwrite the entry at the path or create it. -/
def fsWrite (fs : List FSEntry) (p c : String) (m : Nat) : List FSEntry :=
  if fs.any (fun e => e.path == p) then
    fs.map (fun e => if e.path == p then { path := p, content := c, mtimeMs := m } else e)
  else
    fs ++ [{ path := p, content := c, mtimeMs := m }]

/-- A note exported from the Source (the dict returned by the bridge's
`export-note <id> --html` / one element of `export-all`).  `textOnly`
models `NoteContent.get_content_type() == TEXT_ONLY`. -/
structure AppleNote where
  id : String
  name : String
  bodyPlainText : String
  bodyHTML : String
  modificationDate : String
  folderPath : String
  textOnly : Bool
deriving DecidableEq

/-- The pure text collaborators (spec section 6), parameters of the model:
the truncated SHA-256 fingerprint and the markdown/HTML converters.  Every
verified property depends on them only through equality of outputs. -/
structure Conv where
  hashOf : String → String
  extractTitleFromMarkdown : String → String × String
  markdownToAppleHtml : String → String
  convertToMarkdown : AppleNote → String

/-- The content fingerprint of a Source note, `_compute_content_hash` in
both engine.py and orchestrator.py: hash of `name|bodyPlainText|modificationDate`. -/
def noteHash (conv : Conv) (n : AppleNote) : String :=
  conv.hashOf (n.name ++ "|" ++ n.bodyPlainText ++ "|" ++ n.modificationDate)

/-- Kind of a detected Mirror-side change (supernote_watcher.py `ChangeType`). -/
inductive ChangeType where
  | modified
  | deleted
deriving DecidableEq

/-- A detected change (supernote_watcher.py `ChangedFile`). -/
structure ChangedFile where
  path : String
  change_type : ChangeType
  apple_note_id : String
  new_content_hash : Option String
  new_modified_at : Option Nat
  previous_hash : Option String
deriving DecidableEq

/-- One step of building `path_to_state` in `scan_for_changes`: a Python
dict insert keyed by `output_path` (empty paths are skipped; a repeated
key replaces the stored value in place). -/
def ptsStep (acc : List (String × NoteRow)) (st : NoteRow) : List (String × NoteRow) :=
  if st.output_path == "" then acc
  else if acc.any (fun pr => pr.1 == st.output_path) then
    acc.map (fun pr => if pr.1 == st.output_path then (pr.1, st) else pr)
  else
    acc ++ [(st.output_path, st)]

/-- The `path_to_state` dict of `scan_for_changes`, in insertion order. -/
def pathToState (l : List NoteRow) : List (String × NoteRow) :=
  l.foldl ptsStep []

/-- The changes emitted for one `path_to_state` entry by the loop body of
`scan_for_changes`: a deletion if the file is gone; a modification if a
truthy baseline fingerprint is stored and the current fingerprint differs;
nothing otherwise. -/
def emitChange (conv : Conv) (fs : List FSEntry) (pr : String × NoteRow) :
    List ChangedFile :=
  match fsLookup fs pr.1 with
  | none =>
    [{ path := pr.1
       change_type := ChangeType.deleted
       apple_note_id := pr.2.apple_note_id
       new_content_hash := none
       new_modified_at := none
       previous_hash := pr.2.supernote_content_hash }]
  | some entry =>
    match pr.2.supernote_content_hash with
    | none => []
    | some prev =>
      if prev != "" && conv.hashOf entry.content != prev then
        [{ path := pr.1
           change_type := ChangeType.modified
           apple_note_id := pr.2.apple_note_id
           new_content_hash := some (conv.hashOf entry.content)
           new_modified_at := some entry.mtimeMs
           previous_hash := some prev }]
      else []

/-- `scan_for_changes`: iterate the deduplicated tracked files and collect
the per-file emissions in order. -/
def scanForChanges (conv : Conv) (fs : List FSEntry) (db : StateDB) :
    List ChangedFile :=
  (pathToState (getAllTxtStates db)).flatMap (emitChange conv fs)

/-- `scan_for_new_files`: the `.txt` files under the Mirror root whose path
is not among the output paths of `get_all_txt_states`. -/
def scanForNewFiles (root : String) (fs : List FSEntry) (db : StateDB) :
    List String :=
  let tracked := (getAllTxtStates db).map (fun st => st.output_path)
  ((fs.filter (fun e => strStartsWith e.path (root ++ "/") && strEndsWith e.path ".txt")).filter
    (fun e => !(tracked.contains e.path))).map (fun e => e.path)

/-- `get_apple_folder_path`: the folder part of the path relative to the
Mirror root, empty for root-level files or paths outside the root. -/
def getAppleFolderPath (root p : String) : String :=
  if strStartsWith p (root ++ "/") then
    let rel := strDrop p (root.data.length + 1)
    let comps := (strSplitOnSlash rel).dropLast
    match comps with
    | [] => ""
    | c :: cs => cs.foldl (fun a b => a ++ "/" ++ b) c
  else ""

/-- Commands issued to the Swift-bridge transport and originals-ledger
inserts, recorded as an execution trace for ordering properties. -/
inductive Event where
  | cmdBackupAll
  | cmdExportAll
  | cmdExportNote (id : String)
  | cmdGetFolderByName (nm : String)
  | cmdCreateFolder (nm : String)
  | cmdCreateNote (nm : String)
  | cmdUpdateNote (id : String)
  | cmdDeleteNote (id : String)
  | dbInsertOriginal (id : String)
deriving DecidableEq

/-- The Source transport as a deterministic oracle.  A `none` result is a
failed bridge call (nonzero exit status, raised as `RuntimeError` and
caught by the Python callers).  `createNote` returns the `id` field of the
JSON reply, which may itself be missing (`some none`). -/
structure Transport where
  exportNote : String → Option AppleNote
  getFolderByName : String → Option (Option String)
  createFolder : String → Option String
  createNote : String → String → Option String → Option String → Option (Option String)
  updateNote : String → String → Option Unit
  deleteNote : String → Option Unit
  exportAll : List AppleNote

/-- Name of the non-synced Source-side holding folder for backups
(reverse.py `ORIGINALS_FOLDER_NAME`). -/
def originalsFolderName : String := "Originals (Supernote Sync)"

/-- Mutable per-run state of the reverse engine: the store plus the cached
Originals folder id. -/
structure RevState where
  db : StateDB
  originalsFolderId : Option String
deriving DecidableEq

/-- Last path component (`Path.name` / `split("/")[-1]`). -/
def lastComponent (p : String) : String :=
  ((strSplitOnSlash p).getLast?).getD p

/-- `Path.stem` specialised to the watcher's `*.txt` artifacts: the file
name without its `.txt` extension. -/
def stemOf (p : String) : String :=
  let nm := lastComponent p
  if strEndsWith nm ".txt" then strDropRight nm 4 else nm

/-- `_ensure_originals_folder`: answer from the cache, else look the folder
up by name, else create it; the id is cached on success.  A `none` third
component models a raised bridge error. -/
def ensureOriginalsFolder (t : Transport) (s : RevState) :
    RevState × List Event × Option String :=
  match s.originalsFolderId with
  | some fid => (s, [], some fid)
  | none =>
    match t.getFolderByName originalsFolderName with
    | none => (s, [Event.cmdGetFolderByName originalsFolderName], none)
    | some (some fid) =>
      ({ s with originalsFolderId := some fid },
       [Event.cmdGetFolderByName originalsFolderName], some fid)
    | some none =>
      match t.createFolder originalsFolderName with
      | none =>
        (s, [Event.cmdGetFolderByName originalsFolderName,
             Event.cmdCreateFolder originalsFolderName], none)
      | some fid =>
        ({ s with originalsFolderId := some fid },
         [Event.cmdGetFolderByName originalsFolderName,
          Event.cmdCreateFolder originalsFolderName], some fid)

/-- The metadata header prepended to a backup note's HTML body
(`_backup_to_originals`). -/
def backupMetadataHtml (now : Nat) (reason noteId originalHtml : String) : String :=
  "\n<div><b>Original Backup</b></div>\n<div>Backed up: " ++ toString now ++
  "</div>\n<div>Reason: " ++ reason ++ "</div>\n<div>Original Note ID: " ++ noteId ++
  "</div>\n<div><br></div>\n<div>--- Original Content Below ---</div>\n<div><br></div>\n" ++
  originalHtml ++ "\n"

/-- The display name of a backup note (`"{name} (Original {timestamp})"`). -/
def backupName (now : Nat) (noteName : String) : String :=
  noteName ++ " (Original " ++ toString now ++ ")"

/-- `_backup_to_originals`: export the current note, ensure the Originals
folder, create the backup note there, then insert one originals row.  Any
failed step returns `false` with no ledger insert (best-effort safety). -/
def backupToOriginals (t : Transport) (now : Nat) (s : RevState)
    (noteId reason : String) : RevState × List Event × Bool :=
  match t.exportNote noteId with
  | none => (s, [Event.cmdExportNote noteId], false)
  | some nd =>
    let efr := ensureOriginalsFolder t s
    match efr.2.2 with
    | none => (efr.1, Event.cmdExportNote noteId :: efr.2.1, false)
    | some fid =>
      match t.createNote (backupName now nd.name)
          (backupMetadataHtml now reason noteId nd.bodyHTML) (some fid) none with
      | none =>
        (efr.1,
         Event.cmdExportNote noteId :: efr.2.1 ++
           [Event.cmdCreateNote (backupName now nd.name)], false)
      | some backupId =>
        let db1 := recordOriginal efr.1.db noteId nd.bodyPlainText (some nd.bodyHTML)
          reason now backupId
        ({ efr.1 with db := db1 },
         Event.cmdExportNote noteId :: efr.2.1 ++
           [Event.cmdCreateNote (backupName now nd.name), Event.dbInsertOriginal noteId],
         true)

/-- Result of one reverse-sync operation (reverse.py `ReverseSyncResult`). -/
structure ReverseSyncResult where
  success : Bool
  apple_note_id : String
  action : String
  error : Option String
  original_backed_up : Bool
deriving DecidableEq

/-- `sync_modified_file`: re-read the Mirror file, skip echoes of the
forward phase, back the current Source note up, convert the new text to
native markup, update the Source note, and record the echo-guard and
Mirror-side hashes.  Failed bridge calls yield a `failed` result. -/
def syncModifiedFile (conv : Conv) (t : Transport) (fs : List FSEntry) (now : Nat)
    (s : RevState) (change : ChangedFile) :
    RevState × List Event × ReverseSyncResult :=
  match fsLookup fs change.path with
  | none =>
    (s, [], { success := false, apple_note_id := change.apple_note_id,
              action := "skipped", error := some "File no longer exists",
              original_backed_up := false })
  | some entry =>
    let newHash := conv.hashOf entry.content
    if isEchoFromSupernote s.db change.apple_note_id newHash then
      (s, [], { success := true, apple_note_id := change.apple_note_id,
                action := "skipped", error := some "Echo from forward sync",
                original_backed_up := false })
    else
      let bk := backupToOriginals t now s change.apple_note_id
        ("Modified on Supernote: " ++ lastComponent change.path)
      let htmlBody := conv.markdownToAppleHtml
        (conv.extractTitleFromMarkdown entry.content).2
      match t.updateNote change.apple_note_id htmlBody with
      | none =>
        (bk.1, bk.2.1 ++ [Event.cmdUpdateNote change.apple_note_id],
         { success := false, apple_note_id := change.apple_note_id,
           action := "failed", error := some "Swift bridge error", original_backed_up := false })
      | some _ =>
        let db1 := updateAppleWrittenHash bk.1.db change.apple_note_id
          (conv.hashOf htmlBody)
        let db2 := updateSupernoteState db1 change.apple_note_id newHash
          (change.new_modified_at.getD 0)
        ({ bk.1 with db := db2 },
         bk.2.1 ++ [Event.cmdUpdateNote change.apple_note_id],
         { success := true, apple_note_id := change.apple_note_id,
           action := "updated", error := none, original_backed_up := bk.2.2 })

/-- `sync_deleted_file`: back the Source note up (best-effort), then delete
it through the transport. -/
def syncDeletedFile (t : Transport) (now : Nat) (s : RevState)
    (change : ChangedFile) : RevState × List Event × ReverseSyncResult :=
  let bk := backupToOriginals t now s change.apple_note_id
    ("Deleted on Supernote: " ++ lastComponent change.path)
  match t.deleteNote change.apple_note_id with
  | none =>
    (bk.1, bk.2.1 ++ [Event.cmdDeleteNote change.apple_note_id],
     { success := false, apple_note_id := change.apple_note_id,
       action := "failed", error := some "Swift bridge error", original_backed_up := false })
  | some _ =>
    (bk.1, bk.2.1 ++ [Event.cmdDeleteNote change.apple_note_id],
     { success := true, apple_note_id := change.apple_note_id,
       action := "deleted", error := none, original_backed_up := bk.2.2 })

/-- `process_change`: dispatch on the change kind. -/
def processChange (conv : Conv) (t : Transport) (fs : List FSEntry) (now : Nat)
    (s : RevState) (change : ChangedFile) :
    RevState × List Event × ReverseSyncResult :=
  match change.change_type with
  | ChangeType.modified => syncModifiedFile conv t fs now s change
  | ChangeType.deleted => syncDeletedFile t now s change

/-- `create_apple_note_from_txt`: read the untracked Mirror file, extract a
title (falling back to the file stem), convert the body, create the note
through the transport (passing the last folder-name component when the
target folder is non-empty), and record the written hash for the returned
id.  A missing or empty returned id is a failure. -/
def createAppleNoteFromTxt (conv : Conv) (t : Transport) (fs : List FSEntry)
    (s : RevState) (txtPath appleFolderPath : String) :
    RevState × List Event × ReverseSyncResult :=
  match fsLookup fs txtPath with
  | none =>
    (s, [], { success := false, apple_note_id := "", action := "failed",
              error := some ("File not found: " ++ txtPath),
              original_backed_up := false })
  | some entry =>
    let pr := conv.extractTitleFromMarkdown entry.content
    let htmlBody := conv.markdownToAppleHtml pr.2
    let title := if pr.1 == "" || pr.1 == "Untitled" then stemOf txtPath else pr.1
    let folderNameArg : Option String :=
      if appleFolderPath == "" then none else some (lastComponent appleFolderPath)
    match t.createNote title htmlBody none folderNameArg with
    | none =>
      (s, [Event.cmdCreateNote title],
       { success := false, apple_note_id := "", action := "failed",
         error := some "Swift bridge error", original_backed_up := false })
    | some idField =>
      let newNoteId := idField.getD ""
      if newNoteId != "" then
        ({ s with db := updateAppleWrittenHash s.db newNoteId (conv.hashOf htmlBody) },
         [Event.cmdCreateNote title],
         { success := true, apple_note_id := newNoteId, action := "created",
           error := none, original_backed_up := false })
      else
        (s, [Event.cmdCreateNote title],
         { success := false, apple_note_id := "", action := "failed",
           error := some "No note ID returned", original_backed_up := false })

/-- Counters of a sync run (engine.py `BidirectionalSyncStats`; the `errors`
detail list is not modelled, failures are counted). -/
structure RunStats where
  forward_total : Nat
  forward_created : Nat
  forward_updated : Nat
  forward_skipped : Nat
  forward_failed : Nat
  reverse_modified : Nat
  reverse_deleted : Nat
  reverse_created : Nat
  reverse_skipped : Nat
  reverse_failed : Nat
  originals_backed_up : Nat
  conflicts_detected : Nat
  conflicts_resolved_apple_wins : Nat
deriving DecidableEq

/-- Fresh all-zero statistics. -/
def emptyStats : RunStats :=
  { forward_total := 0, forward_created := 0, forward_updated := 0,
    forward_skipped := 0, forward_failed := 0, reverse_modified := 0,
    reverse_deleted := 0, reverse_created := 0, reverse_skipped := 0,
    reverse_failed := 0, originals_backed_up := 0, conflicts_detected := 0,
    conflicts_resolved_apple_wins := 0 }

/-- How `run_reverse_sync` counts one `process_change` result. -/
def countResult (st : RunStats) (res : ReverseSyncResult) : RunStats :=
  if res.success then
    let st1 :=
      if res.action == "updated" then
        { st with reverse_modified := st.reverse_modified + 1 }
      else if res.action == "deleted" then
        { st with reverse_deleted := st.reverse_deleted + 1 }
      else if res.action == "skipped" then
        { st with reverse_skipped := st.reverse_skipped + 1 }
      else st
    if res.original_backed_up then
      { st1 with originals_backed_up := st1.originals_backed_up + 1 }
    else st1
  else
    { st with reverse_failed := st.reverse_failed + 1 }

/-- The tail of the `run_reverse_sync` loop body: process the change and
count the outcome. -/
def reverseApply (conv : Conv) (t : Transport) (fs : List FSEntry) (now : Nat)
    (s : RevState) (st : RunStats) (ev : List Event) (ch : ChangedFile) :
    RevState × RunStats × List Event :=
  let pc := processChange conv t fs now s ch
  (pc.1, countResult st pc.2.2, ev ++ pc.2.1)

/-- One iteration of the `run_reverse_sync` change loop (non-dry-run): if a
state record exists, re-export the Source note and compare fingerprints; a
difference is a conflict resolved by skipping the Mirror-side change
(Source wins); a failed re-check or no record proceeds with the apply. -/
def reverseStep (conv : Conv) (t : Transport) (fs : List FSEntry) (now : Nat)
    (acc : RevState × RunStats × List Event) (ch : ChangedFile) :
    RevState × RunStats × List Event :=
  let s := acc.1
  let st := acc.2.1
  let ev := acc.2.2
  match getNoteState s.db ch.apple_note_id with
  | some strow =>
    match t.exportNote ch.apple_note_id with
    | some note =>
      if noteHash conv note != strow.content_hash then
        (s, { st with conflicts_detected := st.conflicts_detected + 1,
                      conflicts_resolved_apple_wins := st.conflicts_resolved_apple_wins + 1,
                      reverse_skipped := st.reverse_skipped + 1 },
         ev ++ [Event.cmdExportNote ch.apple_note_id])
      else
        reverseApply conv t fs now s st (ev ++ [Event.cmdExportNote ch.apple_note_id]) ch
    | none =>
      reverseApply conv t fs now s st (ev ++ [Event.cmdExportNote ch.apple_note_id]) ch
  | none =>
    reverseApply conv t fs now s st ev ch

/-- One iteration of the new-file loop of `run_reverse_sync`: derive the
target folder from the path and create a Source note from the file. -/
def reverseNewFileStep (conv : Conv) (t : Transport) (fs : List FSEntry) (root : String)
    (acc : RevState × RunStats × List Event) (p : String) :
    RevState × RunStats × List Event :=
  let cr := createAppleNoteFromTxt conv t fs acc.1 p (getAppleFolderPath root p)
  if cr.2.2.success then
    (cr.1, { acc.2.1 with reverse_created := acc.2.1.reverse_created + 1 },
     acc.2.2 ++ cr.2.1)
  else
    (cr.1, { acc.2.1 with reverse_failed := acc.2.1.reverse_failed + 1 },
     acc.2.2 ++ cr.2.1)

/-- `run_reverse_sync` (non-dry-run): scan tracked files for changes and
process each, then scan for untracked `.txt` files and create Source notes
for them. -/
def runReverseSync (conv : Conv) (t : Transport) (root : String) (fs : List FSEntry)
    (now : Nat) (s0 : RevState) : RevState × RunStats × List Event :=
  let changes := scanForChanges conv fs s0.db
  let r1 := changes.foldl (reverseStep conv t fs now) (s0, emptyStats, [])
  (scanForNewFiles root fs r1.1.db).foldl (reverseNewFileStep conv t fs root) r1

/-- `sanitize_filename` (supernote/paths.py) with the default maximum
length 200: replace unsafe characters, strip surrounding whitespace, then
surrounding dots, then truncate. -/
def sanitizeFilename (name : String) : String :=
  let unsafeChars : List Char := ['<', '>', ':', '"', '/', '\\', '|', '?', '*']
  let replaced := name.data.map (fun c => if unsafeChars.contains c then '_' else c)
  let trimmed := listDropRightWhile Char.isWhitespace (replaced.dropWhile Char.isWhitespace)
  let noDots := listDropRightWhile (fun c => c == '.') (trimmed.dropWhile (fun c => c == '.'))
  if noDots.length > 200 then String.mk (noDots.take 200) else String.mk noDots

/-- Python `str.strip("/")`. -/
def stripSlashes (s : String) : String :=
  String.mk (listDropRightWhile (fun c => c == '/') (s.data.dropWhile (fun c => c == '/')))

/-- `_make_relative_path` (orchestrator.py): folder path plus sanitised
note name with the `.note` extension. -/
def makeRelativePath (n : AppleNote) : String :=
  let folderPath := stripSlashes n.folderPath
  let safeName := sanitizeFilename n.name
  if folderPath != "" then folderPath ++ "/" ++ safeName ++ ".note"
  else safeName ++ ".note"

/-- The Markdown generator's output for a note (generators/markdown.py
`generate`): the `.note` relative path is rewritten to `.txt` under the
output base, and the file content is `_convert_to_markdown(content)`
(abstracted as `Conv.convertToMarkdown`). -/
def markdownGenOut (conv : Conv) (outputBase : String) (n : AppleNote) :
    String × String :=
  let rel := makeRelativePath n
  let rel2 :=
    if strEndsWith rel ".note" then strDropRight rel 5 ++ ".txt"
    else if strEndsWith rel ".txt" then rel
    else rel ++ ".txt"
  (outputBase ++ "/" ++ rel2, conv.convertToMarkdown n)

/-- The external part of the forward generation collaborators: the rich
content (PDF) generator as an oracle, and the mtime stamped onto written
files (`_set_file_timestamp` parses the note's modification date). -/
structure ForwardGen where
  pdfGen : AppleNote → Option (String × String)
  writeMtime : AppleNote → Nat

/-- One iteration of `Orchestrator.run` (non-dry-run): hash the note, skip
when `needs_update` is false, otherwise generate the Mirror artifact
(Markdown for text-only content, the PDF oracle otherwise) and record
success (with no Supernote-side hash) or failure. -/
def forwardSyncNote (conv : Conv) (fg : ForwardGen) (outputBase : String) (now : Nat)
    (acc : StateDB × List FSEntry × RunStats) (n : AppleNote) :
    StateDB × List FSEntry × RunStats :=
  let db := acc.1
  let fs := acc.2.1
  let st := acc.2.2
  let h := noteHash conv n
  let existing := getNoteState db n.id
  if !(needsUpdate db n.id h) then
    (db, fs, { st with forward_skipped := st.forward_skipped + 1 })
  else
    let genResult : Option (String × String) × String :=
      if n.textOnly then (some (markdownGenOut conv outputBase n), "text")
      else (fg.pdfGen n, "pdf")
    match genResult.1 with
    | some out =>
      let fs2 := fsWrite fs out.1 out.2 (fg.writeMtime n)
      let db2 := recordSuccess db n.id n.folderPath h now out.1 genResult.2 none
        SyncDirection.toSupernote false
      match existing with
      | some _ => (db2, fs2, { st with forward_updated := st.forward_updated + 1 })
      | none => (db2, fs2, { st with forward_created := st.forward_created + 1 })
    | none =>
      (recordFailure db n.id n.folderPath h now genResult.2 "generation failed", fs,
       { st with forward_failed := st.forward_failed + 1 })

/-- `run_forward_sync` / `Orchestrator.run` (non-dry-run): export all Source
notes and process each in order. -/
def runForwardSync (conv : Conv) (fg : ForwardGen) (outputBase : String) (now : Nat)
    (t : Transport) (db : StateDB) (fs : List FSEntry) :
    StateDB × List FSEntry × RunStats × List Event :=
  let start : StateDB × List FSEntry × RunStats :=
    (db, fs, { emptyStats with forward_total := t.exportAll.length })
  let r := t.exportAll.foldl (forwardSyncNote conv fg outputBase now) start
  (r.1, r.2.1, r.2.2, [Event.cmdExportAll])

/-- How `run_bidirectional` combines phase statistics into the returned
object: forward counters from the forward phase, reverse counters from the
reverse phase — except `reverse_created`, which the source never copies
and which therefore stays 0. -/
def mergeStats (r f : RunStats) : RunStats :=
  { forward_total := f.forward_total, forward_created := f.forward_created,
    forward_updated := f.forward_updated, forward_skipped := f.forward_skipped,
    forward_failed := f.forward_failed, reverse_modified := r.reverse_modified,
    reverse_deleted := r.reverse_deleted, reverse_created := 0,
    reverse_skipped := r.reverse_skipped, reverse_failed := r.reverse_failed,
    originals_backed_up := r.originals_backed_up,
    conflicts_detected := r.conflicts_detected,
    conflicts_resolved_apple_wins := r.conflicts_resolved_apple_wins }

/-- `run_bidirectional` (non-dry-run, `create_backup=True`): full Source
snapshot (result ignored, failure only logged), then the reverse phase,
then the forward phase.  The function returns after the forward phase. -/
def runBidirectional (conv : Conv) (fg : ForwardGen) (t : Transport) (root : String)
    (now : Nat) (db : StateDB) (fs : List FSEntry) :
    StateDB × List FSEntry × RunStats × List Event :=
  let rv := runReverseSync conv t root fs now { db := db, originalsFolderId := none }
  let fw := runForwardSync conv fg root now t rv.1.db fs
  (fw.1, fw.2.1, mergeStats rv.2.1 fw.2.2.1,
   Event.cmdBackupAll :: rv.2.2 ++ fw.2.2.2)

/-- `update_supernote_hashes` (engine.py): for every tracked `.txt` state
whose file exists, recompute the fingerprint and mtime and store them via
`update_supernote_state`.  The CLI invokes this only after a forward-only
run. -/
def updateSupernoteHashes (conv : Conv) (fs : List FSEntry) (db : StateDB) : StateDB :=
  (getAllTxtStates db).foldl (fun d st =>
    if st.output_path == "" then d
    else
      match fsLookup fs st.output_path with
      | none => d
      | some e => updateSupernoteState d st.apple_note_id (conv.hashOf e.content) e.mtimeMs) db

/-- Overwriting a path and looking it up returns the written entry
(the map-replace case). -/
theorem fsFind_map_replace (l : List FSEntry) (p c : String) (m : Nat)
    (h : l.any (fun e => e.path == p) = true) :
    (l.map (fun e => if e.path == p then { path := p, content := c, mtimeMs := m } else e)).find?
      (fun e => e.path == p) = some { path := p, content := c, mtimeMs := m } := by
  induction l with
  | nil => simp at h
  | cons x xs ih =>
    cases hx : (x.path == p) with
    | true =>
      simp [List.find?, hx]
    | false =>
      simp only [List.any_cons, hx, Bool.false_or] at h
      simp only [List.map_cons, hx, Bool.false_eq_true, if_false]
      rw [List.find?_cons_of_neg _ (by simp [hx])]
      exact ih h

/-- Creating a file at an absent path and looking it up returns the new
entry (the append case). -/
theorem fsFind_append_self (l : List FSEntry) (p c : String) (m : Nat)
    (h : l.any (fun e => e.path == p) = false) :
    (l ++ [({ path := p, content := c, mtimeMs := m } : FSEntry)]).find?
      (fun e => e.path == p) = some { path := p, content := c, mtimeMs := m } := by
  induction l with
  | nil => simp [List.find?]
  | cons x xs ih =>
    simp only [List.any_cons, Bool.or_eq_false_iff] at h
    simp only [List.cons_append]
    rw [List.find?_cons_of_neg _ (by simp [h.1])]
    exact ih h.2

/-- Looking up a freshly written path returns the written entry. -/
theorem fsLookup_fsWrite (fs : List FSEntry) (p c : String) (m : Nat) :
    fsLookup (fsWrite fs p c m) p = some { path := p, content := c, mtimeMs := m } := by
  unfold fsLookup fsWrite
  cases h : fs.any (fun e => e.path == p) with
  | true =>
    simp only [if_pos rfl, h]
    exact fsFind_map_replace fs p c m h
  | false =>
    simp only [h, Bool.false_eq_true, if_false]
    exact fsFind_append_self fs p c m h

/-- A concrete instantiation of the pure collaborators used by witnesses:
an injective toy fingerprint and trivial converters. -/
def convW : Conv :=
  { hashOf := fun s => "h:" ++ s
    extractTitleFromMarkdown := fun s => ("", s)
    markdownToAppleHtml := fun s => s
    convertToMarkdown := fun n => n.bodyPlainText }

/-- The empty state store. -/
def dbEmptyW : StateDB := { note_state := [], originals := [] }

/-- A concrete tracked row: successful text output with no optional
bidirectional fields set. -/
def rowW : NoteRow :=
  { apple_note_id := "N1", apple_folder_path := "", content_hash := "H0",
    last_processed := 0, output_path := "/m/a.txt", generator_type := "text",
    success := true, error := none, supernote_content_hash := none,
    supernote_modified_at := none, last_sync_direction := none,
    apple_written_hash := none, is_locked := false }

/-- A store holding exactly `rowW`. -/
def dbRowW : StateDB := { note_state := [rowW], originals := [] }

/-- C10: for a note id with no NoteState record, both echo checks return
false; and for a record whose stored `apple_written_hash` or
`supernote_content_hash` is absent, the corresponding echo check returns
false for every candidate hash. -/
theorem echo_checks_false_when_absent (db : StateDB) (id h : String) :
    (getNoteState db id = none →
      isEchoFromApple db id h = false ∧ isEchoFromSupernote db id h = false) ∧
    (∀ st : NoteRow, getNoteState db id = some st →
      (st.apple_written_hash = none → isEchoFromApple db id h = false) ∧
      (st.supernote_content_hash = none → isEchoFromSupernote db id h = false)) := by
  constructor
  · intro hn
    constructor
    · unfold isEchoFromApple
      rw [hn]
    · unfold isEchoFromSupernote
      rw [hn]
  · intro st hs
    constructor
    · intro ha
      unfold isEchoFromApple
      rw [hs]
      simp [ha]
    · intro hb
      unfold isEchoFromSupernote
      rw [hs]
      simp [hb]

/-- Witness for C10: evaluated on the empty store and on a store whose row
has both optional hashes absent. -/
theorem echo_checks_false_when_absent_witness :
    isEchoFromApple dbEmptyW "N1" "x" = false ∧
    isEchoFromSupernote dbEmptyW "N1" "x" = false ∧
    isEchoFromApple dbRowW "N1" "x" = false ∧
    isEchoFromSupernote dbRowW "N1" "x" = false := by
  have h1 := (echo_checks_false_when_absent dbEmptyW "N1" "x").1 (by rfl)
  have h2 := (echo_checks_false_when_absent dbRowW "N1" "x").2 rowW (by rfl)
  exact ⟨h1.1, h1.2, h2.1 (by rfl), h2.2 (by rfl)⟩

/-- C9 counterexample: `record_failure` is an `INSERT OR REPLACE`, so a
previously recorded non-empty `output_path` is overwritten to the empty
string, contrary to the claim that it is not altered. -/
theorem recordFailure_alters_output_path :
    (getNoteState dbRowW "N1").map (fun r => r.output_path) = some "/m/a.txt" ∧
    (getNoteState (recordFailure dbRowW "N1" "F" "H1" 7 "text" "boom") "N1").map
      (fun r => r.output_path) = some "" ∧
    ("" : String) ≠ "/m/a.txt" := by
  refine ⟨rfl, rfl, by decide⟩

/-- C9 amended: `record_failure` upserts the whole row: `lastOutcome`
failure with the error recorded, `outputPath` reset to the empty string
(a prior non-empty value is overwritten), and the optional bidirectional
columns reset to absent. -/
theorem recordFailure_row (db : StateDB) (id folder h : String) (now : Nat)
    (gen err : String) :
    getNoteState (recordFailure db id folder h now gen err) id =
      some { apple_note_id := id, apple_folder_path := folder, content_hash := h,
             last_processed := now, output_path := "", generator_type := gen,
             success := false, error := some err, supernote_content_hash := none,
             supernote_modified_at := none, last_sync_direction := none,
             apple_written_hash := none, is_locked := false } :=
  getNoteState_upsertRow db _

/-- A row tracked with a `.txt` output path but `lastOutcome = failure`. -/
def rowC8 : NoteRow :=
  { apple_note_id := "N8", apple_folder_path := "", content_hash := "H8",
    last_processed := 0, output_path := "/m/a.txt", generator_type := "text",
    success := false, error := some "boom", supernote_content_hash := none,
    supernote_modified_at := none, last_sync_direction := none,
    apple_written_hash := none, is_locked := false }

/-- A store holding exactly `rowC8`. -/
def dbC8 : StateDB := { note_state := [rowC8], originals := [] }

/-- A Mirror filesystem with one text file at the path `rowC8` tracks. -/
def fsC8 : List FSEntry := [{ path := "/m/a.txt", content := "hello", mtimeMs := 3 }]

/-- C8 counterexample: a path recorded in a note's state with
`lastOutcome = failure` is still reported as new, because the tracked set
is restricted to `success = 1` rows, contrary to "regardless of state". -/
theorem scanForNewFiles_reports_failure_tracked_path :
    scanForNewFiles "/m" fsC8 dbC8 = ["/m/a.txt"] ∧
    "/m/a.txt" ∈ dbC8.note_state.map (fun r => r.output_path) := by
  refine ⟨by rfl, by simp [dbC8, rowC8]⟩

/-- C8 amended: `scan_for_new_files` returns exactly the `.txt` files under
the Mirror root whose path is not among the `outputPath` values of the
successful `.txt` rows (`get_all_txt_states`); a path recorded only by a
failure row is reported as new. -/
theorem mem_scanForNewFiles_iff (root : String) (fs : List FSEntry) (db : StateDB)
    (p : String) :
    p ∈ scanForNewFiles root fs db ↔
      ((∃ e ∈ fs, e.path = p) ∧
       (strStartsWith p (root ++ "/") && strEndsWith p ".txt") = true ∧
       ((getAllTxtStates db).map (fun st => st.output_path)).contains p = false) := by
  unfold scanForNewFiles
  constructor
  · intro hp
    rcases List.mem_map.mp hp with ⟨e, he, hep⟩
    rcases List.mem_filter.mp he with ⟨he2, hcond2⟩
    rcases List.mem_filter.mp he2 with ⟨hef, hcond1⟩
    subst hep
    refine ⟨⟨e, hef, rfl⟩, hcond1, ?_⟩
    simpa using hcond2
  · rintro ⟨⟨e, hef, hep⟩, hcond1, hcond2⟩
    subst hep
    apply List.mem_map.mpr
    refine ⟨e, ?_, rfl⟩
    apply List.mem_filter.mpr
    refine ⟨List.mem_filter.mpr ⟨hef, hcond1⟩, ?_⟩
    simpa using hcond2

/-- C5: a modified change whose current Mirror content fingerprint equals
the stored `supernote_content_hash` is an echo of the forward phase: the
Reverse Applier issues no transport command, performs no backup, leaves
the store untouched, and returns a successful `skipped` result. -/
theorem echo_modified_is_skipped (conv : Conv) (t : Transport) (fs : List FSEntry)
    (now : Nat) (s : RevState) (ch : ChangedFile) (entry : FSEntry) (strow : NoteRow)
    (hkind : ch.change_type = ChangeType.modified)
    (hfile : fsLookup fs ch.path = some entry)
    (hstate : getNoteState s.db ch.apple_note_id = some strow)
    (hecho : strow.supernote_content_hash = some (conv.hashOf entry.content)) :
    processChange conv t fs now s ch =
      (s, [], { success := true, apple_note_id := ch.apple_note_id,
                action := "skipped", error := some "Echo from forward sync",
                original_backed_up := false }) := by
  unfold processChange
  rw [hkind]
  unfold syncModifiedFile
  rw [hfile]
  have hech : isEchoFromSupernote s.db ch.apple_note_id (conv.hashOf entry.content) = true := by
    unfold isEchoFromSupernote
    rw [hstate]
    simp [hecho]
  simp [hech]

/-- A tracked row whose stored Mirror fingerprint matches `convW` applied
to the current file content `same`. -/
def rowEchoW : NoteRow :=
  { rowW with supernote_content_hash := some "h:same" }

/-- Store for the echo scenario. -/
def dbEchoW : StateDB := { note_state := [rowEchoW], originals := [] }

/-- Mirror filesystem for the echo scenario. -/
def fsEchoW : List FSEntry := [{ path := "/m/a.txt", content := "same", mtimeMs := 4 }]

/-- A transport on which every call fails; the echo path must not touch it. -/
def tNullW : Transport :=
  { exportNote := fun _ => none, getFolderByName := fun _ => none,
    createFolder := fun _ => none, createNote := fun _ _ _ _ => none,
    updateNote := fun _ _ => none, deleteNote := fun _ => none, exportAll := [] }

/-- The modified change of the echo scenario. -/
def chEchoW : ChangedFile :=
  { path := "/m/a.txt", change_type := ChangeType.modified, apple_note_id := "N1",
    new_content_hash := some "h:same", new_modified_at := some 4,
    previous_hash := some "h:old" }

/-- Witness for C5, on the concrete echo scenario. -/
theorem echo_modified_is_skipped_witness :
    chEchoW.change_type = ChangeType.modified ∧
    fsLookup fsEchoW chEchoW.path = some { path := "/m/a.txt", content := "same", mtimeMs := 4 } ∧
    getNoteState dbEchoW chEchoW.apple_note_id = some rowEchoW ∧
    rowEchoW.supernote_content_hash = some (convW.hashOf "same") ∧
    processChange convW tNullW fsEchoW 4 { db := dbEchoW, originalsFolderId := none } chEchoW =
      ({ db := dbEchoW, originalsFolderId := none }, [],
       { success := true, apple_note_id := "N1", action := "skipped",
         error := some "Echo from forward sync", original_backed_up := false }) :=
  ⟨rfl, rfl, rfl, rfl,
   echo_modified_is_skipped convW tNullW fsEchoW 4
     { db := dbEchoW, originalsFolderId := none } chEchoW
     { path := "/m/a.txt", content := "same", mtimeMs := 4 } rowEchoW
     rfl rfl rfl rfl⟩

/-- The store after the pre-deletion backup: the original content of the
exported note appended to the ledger with the deletion reason. -/
def dbAfterDeleteBackup (s : RevState) (ch : ChangedFile) (nd : AppleNote)
    (now : Nat) (bid : Option String) : StateDB :=
  recordOriginal s.db ch.apple_note_id nd.bodyPlainText (some nd.bodyHTML)
    ("Deleted on Supernote: " ++ lastComponent ch.path) now bid

/-- C7: processing a deleted change with a cached Originals folder and a
working transport issues, in order, the note export, the backup-note
creation, the single originals-ledger insert for the note id, and only
then the `delete-note` command; the ledger gains exactly one row for that
id. -/
theorem deleted_backed_up_before_delete (conv : Conv) (t : Transport)
    (fs : List FSEntry) (now : Nat) (s : RevState) (ch : ChangedFile)
    (nd : AppleNote) (fid : String) (bid : Option String)
    (hkind : ch.change_type = ChangeType.deleted)
    (hexp : t.exportNote ch.apple_note_id = some nd)
    (hfid : s.originalsFolderId = some fid)
    (hcr : t.createNote (backupName now nd.name)
      (backupMetadataHtml now ("Deleted on Supernote: " ++ lastComponent ch.path)
        ch.apple_note_id nd.bodyHTML) (some fid) none = some bid)
    (hdel : t.deleteNote ch.apple_note_id = some ()) :
    processChange conv t fs now s ch =
      ({ s with db := dbAfterDeleteBackup s ch nd now bid },
       [Event.cmdExportNote ch.apple_note_id,
        Event.cmdCreateNote (backupName now nd.name),
        Event.dbInsertOriginal ch.apple_note_id,
        Event.cmdDeleteNote ch.apple_note_id],
       { success := true, apple_note_id := ch.apple_note_id, action := "deleted",
         error := none, original_backed_up := true }) ∧
    ((dbAfterDeleteBackup s ch nd now bid).originals.filter
      (fun r => r.apple_note_id == ch.apple_note_id)).length =
      (s.db.originals.filter (fun r => r.apple_note_id == ch.apple_note_id)).length + 1 := by
  constructor
  · unfold processChange syncDeletedFile backupToOriginals ensureOriginalsFolder
    simp [hkind, hexp, hfid, hcr, hdel, dbAfterDeleteBackup]
  · simp [dbAfterDeleteBackup, recordOriginal, List.filter_append]

/-- The reverse state used by the deletion witness: one tracked row and a
cached Originals folder id. -/
def sC7 : RevState := { db := dbRowW, originalsFolderId := some "FOLD" }

/-- The current Source content of the note being deleted. -/
def noteC7 : AppleNote :=
  { id := "N1", name := "T", bodyPlainText := "body", bodyHTML := "<div>body</div>",
    modificationDate := "d1", folderPath := "", textOnly := true }

/-- A transport on which every call succeeds. -/
def tOkW : Transport :=
  { exportNote := fun _ => some noteC7, getFolderByName := fun _ => some (some "FOLD"),
    createFolder := fun _ => some "FOLD", createNote := fun _ _ _ _ => some (some "B1"),
    updateNote := fun _ _ => some (), deleteNote := fun _ => some (),
    exportAll := [] }

/-- The deleted change of the deletion witness. -/
def chDelW : ChangedFile :=
  { path := "/m/a.txt", change_type := ChangeType.deleted, apple_note_id := "N1",
    new_content_hash := none, new_modified_at := none, previous_hash := none }

/-- Witness for C7, on the concrete deletion scenario: the hypotheses hold
and the ledger ends with exactly the one backup row. -/
theorem deleted_backed_up_before_delete_witness :
    chDelW.change_type = ChangeType.deleted ∧
    tOkW.exportNote chDelW.apple_note_id = some noteC7 ∧
    sC7.originalsFolderId = some "FOLD" ∧
    tOkW.deleteNote chDelW.apple_note_id = some () ∧
    (processChange convW tOkW [] 11 sC7 chDelW).1.db.originals =
      [{ apple_note_id := "N1", backup_folder_note_id := some "B1",
         original_content := "body", original_html := some "<div>body</div>",
         backed_up_at := 11, reason := "Deleted on Supernote: a.txt" }] := by
  refine ⟨rfl, rfl, rfl, rfl, ?_⟩
  have h := deleted_backed_up_before_delete convW tOkW [] 11 sC7 chDelW noteC7
    "FOLD" (some "B1") rfl rfl rfl rfl rfl
  rw [h.1]
  rfl

/-- Mirror filesystem for the new-file adoption scenario: one untracked
text file inside the `Work` folder. -/
def fsC3 : List FSEntry := [{ path := "/m/Work/x.txt", content := "c", mtimeMs := 2 }]

/-- Transport for the adoption scenario: note creation succeeds and
returns the fresh id `NEW1`. -/
def tC3 : Transport :=
  { tOkW with createNote := fun _ _ _ _ => some (some "NEW1") }

/-- C3 evaluated at the failing input: `create_apple_note_from_txt` on an
untracked file issues exactly one `create-note` command and reports
`created` with the fresh id, but the follow-up "record in state database"
step is `update_apple_written_hash`, an SQL UPDATE that matches zero rows
for a brand-new id — so afterwards no NoteState record exists for the new
note and it is not trackable, contrary to the claim (and to the source's
own comment). -/
theorem createAppleNoteFromTxt_leaves_no_state :
    createAppleNoteFromTxt convW tC3 fsC3 { db := dbEmptyW, originalsFolderId := none }
        "/m/Work/x.txt" "Work" =
      ({ db := dbEmptyW, originalsFolderId := none }, [Event.cmdCreateNote "x"],
       { success := true, apple_note_id := "NEW1", action := "created",
         error := none, original_backed_up := false }) ∧
    getNoteState (createAppleNoteFromTxt convW tC3 fsC3
        { db := dbEmptyW, originalsFolderId := none } "/m/Work/x.txt" "Work").1.db
      "NEW1" = none :=
  ⟨rfl, rfl⟩

/-- The tracked row of the modified-file scenario: Source hash baseline
`H0` and a Mirror baseline differing from the file's new content. -/
def rowC4 : NoteRow :=
  { rowW with supernote_content_hash := some "h:old" }

/-- Store for the modified-file scenario. -/
def dbC4 : StateDB := { note_state := [rowC4], originals := [] }

/-- Mirror filesystem for the modified-file scenario: the tracked file now
holds `new`. -/
def fsC4 : List FSEntry := [{ path := "/m/a.txt", content := "new", mtimeMs := 5 }]

/-- The modified change of the modified-file scenario. -/
def chC4 : ChangedFile :=
  { path := "/m/a.txt", change_type := ChangeType.modified, apple_note_id := "N1",
    new_content_hash := some "h:new", new_modified_at := some 5,
    previous_hash := some "h:old" }

/-- The run of `sync_modified_file` on the modified-file scenario. -/
def c4Run : RevState × List Event × ReverseSyncResult :=
  syncModifiedFile convW tOkW fsC4 9 { db := dbC4, originalsFolderId := some "FOLD" } chC4

/-- C4 evaluated at the failing input: the reverse apply succeeds (action
`updated`, echo-guard hash recorded as the written content's hash
`h:new`), yet the stored `content_hash` remains the old `H0`:
`update_content_hash_after_reverse_sync` has no caller in the source, even
though its own docstring says it must run after a reverse sync to prevent
false conflicts; the last conjunct shows what it would have stored. -/
theorem syncModifiedFile_keeps_content_hash :
    c4Run.2.2 = { success := true, apple_note_id := "N1", action := "updated",
                  error := none, original_backed_up := true } ∧
    (getNoteState c4Run.1.db "N1").map (fun x => x.content_hash) = some "H0" ∧
    (getNoteState c4Run.1.db "N1").map (fun x => x.apple_written_hash) =
      some (some "h:new") ∧
    (getNoteState (updateContentHashAfterReverseSync c4Run.1.db "N1" "h:new") "N1").map
      (fun x => x.content_hash) = some "h:new" ∧
    ("H0" : String) ≠ "h:new" :=
  ⟨rfl, rfl, rfl, rfl, by decide⟩

/-- C1: for a modified change on a note with a stored state, when the
re-exported Source content's fingerprint differs from the stored
`content_hash`, the reverse loop body issues only the read-only export,
leaves the engine state untouched, counts one conflict detected, one
conflict resolved Source-wins and one skip; and the forward step for that
note (whose generated output path is the tracked Mirror file) then
overwrites the Mirror file with the rendering of the Source's current
content. -/
theorem conflict_apple_wins_forward_overwrites (conv : Conv) (fg : ForwardGen)
    (t : Transport) (fs : List FSEntry) (outputBase : String) (now nowF : Nat)
    (s : RevState) (st0 stf : RunStats) (ev0 : List Event) (ch : ChangedFile)
    (strow : NoteRow) (note : AppleNote)
    (hkind : ch.change_type = ChangeType.modified)
    (hstate : getNoteState s.db ch.apple_note_id = some strow)
    (hexp : t.exportNote ch.apple_note_id = some note)
    (hdiff : noteHash conv note ≠ strow.content_hash)
    (hid : note.id = ch.apple_note_id)
    (htext : note.textOnly = true)
    (hpath : (markdownGenOut conv outputBase note).1 = strow.output_path) :
    reverseStep conv t fs now (s, st0, ev0) ch =
      (s, { st0 with conflicts_detected := st0.conflicts_detected + 1,
                     conflicts_resolved_apple_wins := st0.conflicts_resolved_apple_wins + 1,
                     reverse_skipped := st0.reverse_skipped + 1 },
       ev0 ++ [Event.cmdExportNote ch.apple_note_id]) ∧
    fsLookup (forwardSyncNote conv fg outputBase nowF (s.db, fs, stf) note).2.1
        strow.output_path =
      some { path := strow.output_path, content := conv.convertToMarkdown note,
             mtimeMs := fg.writeMtime note } := by
  have hb : (noteHash conv note != strow.content_hash) = true := by
    simp [bne_iff_ne, hdiff]
  constructor
  · unfold reverseStep
    simp only [hstate, hexp, hb]
    simp
  · have hnu : needsUpdate s.db ch.apple_note_id (noteHash conv note) = true := by
      unfold needsUpdate
      rw [hstate]
      simp [bne_iff_ne]
      intro hcontr
      exact hdiff hcontr.symm
    have hkey := fsLookup_fsWrite fs (markdownGenOut conv outputBase note).1
      (markdownGenOut conv outputBase note).2 (fg.writeMtime note)
    unfold forwardSyncNote
    simp only [hnu, htext, hid, hstate, Bool.not_true, Bool.false_eq_true, if_false, if_true]
    rw [← hpath]
    exact hkey

/-- The Source note of the conflict witness: same mapped output path as
`rowC4`, content fingerprint differing from the stored `H0`. -/
def noteC1 : AppleNote :=
  { id := "N1", name := "a", bodyPlainText := "v2", bodyHTML := "",
    modificationDate := "d2", folderPath := "", textOnly := true }

/-- Transport for the conflict witness: the conflict re-check export
returns `noteC1`. -/
def tC1 : Transport :=
  { tOkW with exportNote := fun _ => some noteC1 }

/-- Mirror filesystem for the conflict witness: the tracked file was
independently edited. -/
def fsC1 : List FSEntry := [{ path := "/m/a.txt", content := "mirror-edit", mtimeMs := 8 }]

/-- The forward generation collaborators of the witnesses: no rich-content
notes, written files stamped with mtime 6. -/
def fgW : ForwardGen :=
  { pdfGen := fun _ => none, writeMtime := fun _ => 6 }

/-- The modified change of the conflict witness. -/
def chC1 : ChangedFile :=
  { path := "/m/a.txt", change_type := ChangeType.modified, apple_note_id := "N1",
    new_content_hash := some "h:mirror-edit", new_modified_at := some 8,
    previous_hash := some "h:old" }

/-- Witness for C1, on the concrete conflict scenario: the hypotheses hold,
the loop body counts the conflict without touching the state, and the
forward step rewrites the Mirror file with the Source content `v2`. -/
theorem conflict_apple_wins_forward_overwrites_witness :
    chC1.change_type = ChangeType.modified ∧
    getNoteState dbC4 chC1.apple_note_id = some rowC4 ∧
    tC1.exportNote chC1.apple_note_id = some noteC1 ∧
    noteHash convW noteC1 ≠ rowC4.content_hash ∧
    (markdownGenOut convW "/m" noteC1).1 = rowC4.output_path ∧
    (reverseStep convW tC1 fsC1 9
        ({ db := dbC4, originalsFolderId := none }, emptyStats, []) chC1).2.1.conflicts_detected = 1 ∧
    fsLookup (forwardSyncNote convW fgW "/m" 10 (dbC4, fsC1, emptyStats) noteC1).2.1
        "/m/a.txt" = some { path := "/m/a.txt", content := "v2", mtimeMs := 6 } := by
  have h := conflict_apple_wins_forward_overwrites convW fgW tC1 fsC1 "/m" 9 10
    { db := dbC4, originalsFolderId := none } emptyStats emptyStats [] chC1 rowC4 noteC1
    rfl rfl rfl (by decide) rfl rfl rfl
  refine ⟨rfl, rfl, rfl, by decide, rfl, ?_, ?_⟩
  · rw [h.1]
    rfl
  · exact h.2

/-- Mirror filesystem for the full-pass scenario: the tracked file still
matches its stored baseline `h:old`, so the reverse phase detects nothing. -/
def fsC2 : List FSEntry := [{ path := "/m/a.txt", content := "old", mtimeMs := 1 }]

/-- Transport for the full-pass scenario: `export-all` returns the one
(changed) Source note. -/
def tC2 : Transport :=
  { tC1 with exportAll := [noteC1] }

/-- The full bidirectional pass of the scenario. -/
def c2Run : StateDB × List FSEntry × RunStats × List Event :=
  runBidirectional convW fgW tC2 "/m" 9 dbC4 fsC2

/-- C2 evaluated at the failing input: the pass runs the snapshot, the
reverse phase and the forward phase (trace: backup-all, then export-all)
and returns with no fingerprint refresh — the forward phase rewrote the
Mirror file, and afterwards the note's stored `supernote_content_hash` is
NULL (`record_success` lists it as NULL), so no baseline exists for the
next reverse scan.  The last conjunct shows the value the refresh
(`update_supernote_hashes`, which the CLI invokes only after forward-only
runs and whose docstring says to call it after forward sync) would have
stored. -/
theorem runBidirectional_skips_fingerprint_refresh :
    c2Run.2.2.2 = [Event.cmdBackupAll, Event.cmdExportAll] ∧
    fsLookup c2Run.2.1 "/m/a.txt" =
      some { path := "/m/a.txt", content := "v2", mtimeMs := 6 } ∧
    (getNoteState c2Run.1 "N1").map (fun r => r.supernote_content_hash) = some none ∧
    (getNoteState (updateSupernoteHashes convW c2Run.2.1 c2Run.1) "N1").map
      (fun r => r.supernote_content_hash) = some (some "h:v2") :=
  ⟨rfl, rfl, rfl, rfl⟩

/-- Every element of the dict built by folding `ptsStep` comes from the
initial accumulator or is keyed by the non-empty output path of an input
row. -/
theorem mem_foldl_ptsStep (l : List NoteRow) :
    ∀ (acc : List (String × NoteRow)) (pr : String × NoteRow),
      pr ∈ l.foldl ptsStep acc →
      pr ∈ acc ∨ ∃ st, st ∈ l ∧ pr = (st.output_path, st) ∧ st.output_path ≠ "" := by
  induction l with
  | nil =>
    intro acc pr h
    exact Or.inl h
  | cons x xs ih =>
    intro acc pr h
    rcases ih (ptsStep acc x) pr h with hacc | ⟨st, hst, hpr, hne⟩
    · unfold ptsStep at hacc
      by_cases hempty : (x.output_path == "") = true
      · rw [if_pos hempty] at hacc
        exact Or.inl hacc
      · have hnex : x.output_path ≠ "" := by simpa using hempty
        rw [if_neg hempty] at hacc
        by_cases hany : (acc.any (fun pr => pr.1 == x.output_path)) = true
        · rw [if_pos hany] at hacc
          rcases List.mem_map.mp hacc with ⟨pr0, hpr0, hval⟩
          by_cases hkey : (pr0.1 == x.output_path) = true
          · rw [if_pos hkey] at hval
            right
            refine ⟨x, List.mem_cons_self x xs, ?_, hnex⟩
            rw [← hval]
            have hk : pr0.1 = x.output_path := eq_of_beq hkey
            rw [hk]
          · rw [if_neg hkey] at hval
            rw [← hval]
            exact Or.inl hpr0
        · rw [if_neg hany] at hacc
          rcases List.mem_append.mp hacc with h1 | h2
          · exact Or.inl h1
          · right
            exact ⟨x, List.mem_cons_self x xs, List.mem_singleton.mp h2, hnex⟩
    · exact Or.inr ⟨st, List.mem_cons_of_mem x hst, hpr, hne⟩

/-- `ptsStep` preserves pairwise-distinct keys. -/
theorem keys_nodup_ptsStep (acc : List (String × NoteRow)) (x : NoteRow)
    (h : (acc.map Prod.fst).Nodup) : ((ptsStep acc x).map Prod.fst).Nodup := by
  unfold ptsStep
  by_cases hempty : (x.output_path == "") = true
  · rw [if_pos hempty]
    exact h
  · rw [if_neg hempty]
    by_cases hany : (acc.any (fun pr => pr.1 == x.output_path)) = true
    · rw [if_pos hany]
      have hmaps : ((acc.map (fun pr => if pr.1 == x.output_path then (pr.1, x) else pr)).map
          Prod.fst) = acc.map Prod.fst := by
        rw [List.map_map]
        apply List.map_congr_left
        intro a _
        simp only [Function.comp_apply]
        split <;> rfl
      rw [hmaps]
      exact h
    · rw [if_neg hany]
      rw [List.map_append]
      rw [List.nodup_append]
      refine ⟨h, by simp, ?_⟩
      intro a ha hb
      simp only [List.map_cons, List.map_nil, List.mem_singleton] at hb
      subst hb
      rcases List.mem_map.mp ha with ⟨pr0, hpr0, hfst⟩
      apply hany
      exact List.any_eq_true.mpr ⟨pr0, hpr0, by simp [hfst]⟩

/-- The `path_to_state` dict has pairwise-distinct keys. -/
theorem keys_nodup_pathToState (l : List NoteRow) :
    ((pathToState l).map Prod.fst).Nodup := by
  unfold pathToState
  have haux : ∀ (m : List NoteRow) (acc : List (String × NoteRow)),
      (acc.map Prod.fst).Nodup → ((m.foldl ptsStep acc).map Prod.fst).Nodup := by
    intro m
    induction m with
    | nil => intro acc h; exact h
    | cons x xs ih => intro acc h; exact ih (ptsStep acc x) (keys_nodup_ptsStep acc x h)
  exact haux l [] (by simp)

/-- Every `path_to_state` entry is keyed by the non-empty output path of
one of the input rows. -/
theorem mem_pathToState (l : List NoteRow) (pr : String × NoteRow)
    (h : pr ∈ pathToState l) :
    ∃ st, st ∈ l ∧ pr = (st.output_path, st) ∧ st.output_path ≠ "" := by
  rcases mem_foldl_ptsStep l [] pr h with hacc | hex
  · cases hacc
  · exact hex

/-- Case analysis of the emission for one tracked file: either the file is
gone and a deletion is emitted, or it exists and a modification is emitted
exactly under a present, truthy, differing baseline. -/
theorem mem_emitChange (conv : Conv) (fs : List FSEntry) (pr : String × NoteRow)
    (c : ChangedFile) (hc : c ∈ emitChange conv fs pr) :
    (fsLookup fs pr.1 = none ∧ c.change_type = ChangeType.deleted ∧ c.path = pr.1) ∨
    (∃ entry prev, fsLookup fs pr.1 = some entry ∧
      pr.2.supernote_content_hash = some prev ∧ prev ≠ "" ∧
      conv.hashOf entry.content ≠ prev ∧
      c = { path := pr.1, change_type := ChangeType.modified,
            apple_note_id := pr.2.apple_note_id,
            new_content_hash := some (conv.hashOf entry.content),
            new_modified_at := some entry.mtimeMs, previous_hash := some prev }) := by
  unfold emitChange at hc
  cases hfl : fsLookup fs pr.1 with
  | none =>
    rw [hfl] at hc
    simp only [List.mem_singleton] at hc
    subst hc
    exact Or.inl ⟨rfl, rfl, rfl⟩
  | some entry =>
    rw [hfl] at hc
    cases hsc : pr.2.supernote_content_hash with
    | none =>
      rw [hsc] at hc
      simp at hc
    | some prev =>
      rw [hsc] at hc
      by_cases hcond : (prev != "" && conv.hashOf entry.content != prev) = true
      · simp only [hcond, if_true, List.mem_singleton] at hc
        subst hc
        simp only [Bool.and_eq_true, bne_iff_ne] at hcond
        exact Or.inr ⟨entry, prev, rfl, rfl, hcond.1, hcond.2, rfl⟩
      · simp [hcond] at hc

/-- Under a present, truthy, differing baseline the emission is exactly the
one modification record. -/
theorem emitChange_eq_modified (conv : Conv) (fs : List FSEntry) (pr : String × NoteRow)
    (entry : FSEntry) (prev : String)
    (hfl : fsLookup fs pr.1 = some entry)
    (hsc : pr.2.supernote_content_hash = some prev)
    (hne : prev ≠ "") (hdiff : conv.hashOf entry.content ≠ prev) :
    emitChange conv fs pr =
      [{ path := pr.1, change_type := ChangeType.modified,
         apple_note_id := pr.2.apple_note_id,
         new_content_hash := some (conv.hashOf entry.content),
         new_modified_at := some entry.mtimeMs, previous_hash := some prev }] := by
  unfold emitChange
  rw [hfl, hsc]
  have hcond : (prev != "" && conv.hashOf entry.content != prev) = true := by
    simp [bne_iff_ne, hne, hdiff]
  simp [hcond]

/-- Rows behind `path_to_state` entries over `get_all_txt_states` are rows
of the store, keyed by their own output path. -/
theorem pathToState_row_mem (db : StateDB) (pr : String × NoteRow)
    (hpr : pr ∈ pathToState (getAllTxtStates db)) :
    pr.2 ∈ db.note_state ∧ pr.1 = pr.2.output_path := by
  rcases mem_pathToState _ pr hpr with ⟨st, hst, hpr2, _⟩
  constructor
  · rw [hpr2]
    exact (List.mem_filter.mp hst).1
  · rw [hpr2]

/-- C6: under the primary-key invariant and the invariant that stored
fingerprints are never the empty string (they are truncated hex digests),
`scan_for_changes` (a) never emits a modified change for a note whose
stored `supernote_content_hash` is absent — every modified change carries
that stored baseline as `previous_hash` — and (b) for every tracked file
that still exists, a modified change is emitted exactly when a baseline is
stored and the current fingerprint differs from it, and any such change
carries the new fingerprint, the new mtime and the baseline. -/
theorem scanForChanges_modified_spec (conv : Conv) (fs : List FSEntry) (db : StateDB)
    (hwf : WFdb db)
    (hfp : ∀ st ∈ db.note_state, st.supernote_content_hash ≠ some "") :
    (∀ c ∈ scanForChanges conv fs db, c.change_type = ChangeType.modified →
      ∃ strow, getNoteState db c.apple_note_id = some strow ∧
        strow.supernote_content_hash = c.previous_hash ∧ c.previous_hash ≠ none) ∧
    (∀ pr ∈ pathToState (getAllTxtStates db), ∀ entry, fsLookup fs pr.1 = some entry →
      ((∃ c ∈ scanForChanges conv fs db, c.path = pr.1 ∧
          c.change_type = ChangeType.modified) ↔
        ∃ prev, pr.2.supernote_content_hash = some prev ∧
          conv.hashOf entry.content ≠ prev) ∧
      (∀ c ∈ scanForChanges conv fs db, c.path = pr.1 →
        c.change_type = ChangeType.modified →
        c.new_content_hash = some (conv.hashOf entry.content) ∧
        c.new_modified_at = some entry.mtimeMs ∧
        c.previous_hash = pr.2.supernote_content_hash ∧
        c.apple_note_id = pr.2.apple_note_id)) := by
  constructor
  · intro c hc hkind
    rcases List.mem_flatMap.mp hc with ⟨pr, hpr, hcm⟩
    rcases mem_emitChange conv fs pr c hcm with ⟨_, hdel, _⟩ | hmod
    · rw [hkind] at hdel
      cases hdel
    · rcases hmod with ⟨entry, prev, hfl, hsc, hne, hdiff, hceq⟩
      subst hceq
      have hmem : pr.2 ∈ db.note_state := (pathToState_row_mem db pr hpr).1
      refine ⟨pr.2, getNoteState_of_mem db hwf pr.2 hmem, ?_, by simp⟩
      simpa using hsc
  · intro pr hpr entry hfl
    have hmem : pr.2 ∈ db.note_state := (pathToState_row_mem db pr hpr).1
    constructor
    · constructor
      · rintro ⟨c, hc, hcpath, hckind⟩
        rcases List.mem_flatMap.mp hc with ⟨pr', hpr', hcm⟩
        have hcpath' : c.path = pr'.1 := by
          rcases mem_emitChange conv fs pr' c hcm with ⟨_, _, hp⟩ | hmod
          · exact hp
          · rcases hmod with ⟨e, p, _, _, _, _, hceq⟩
            subst hceq
            rfl
        have hkey : pr'.1 = pr.1 := by rw [← hcpath', hcpath]
        have hpr'eq : pr' = pr :=
          List.inj_on_of_nodup_map (keys_nodup_pathToState (getAllTxtStates db))
            hpr' hpr hkey
        subst hpr'eq
        rcases mem_emitChange conv fs pr' c hcm with ⟨hflnone, _, _⟩ | hmod
        · rw [hfl] at hflnone
          cases hflnone
        · rcases hmod with ⟨e, p, hfl2, hsc2, hne2, hdiff2, hceq⟩
          have he : e = entry := by
            rw [hfl] at hfl2
            injection hfl2 with h2
            exact h2.symm
          subst he
          exact ⟨p, hsc2, hdiff2⟩
      · rintro ⟨prev, hsc, hdiff⟩
        have hne : prev ≠ "" := by
          intro hcontr
          subst hcontr
          exact hfp pr.2 hmem hsc
        refine ⟨{ path := pr.1, change_type := ChangeType.modified,
                  apple_note_id := pr.2.apple_note_id,
                  new_content_hash := some (conv.hashOf entry.content),
                  new_modified_at := some entry.mtimeMs,
                  previous_hash := some prev }, ?_, rfl, rfl⟩
        apply List.mem_flatMap.mpr
        refine ⟨pr, hpr, ?_⟩
        rw [emitChange_eq_modified conv fs pr entry prev hfl hsc hne hdiff]
        exact List.mem_singleton.mpr rfl
    · intro c hc hcpath hckind
      rcases List.mem_flatMap.mp hc with ⟨pr', hpr', hcm⟩
      have hcpath' : c.path = pr'.1 := by
        rcases mem_emitChange conv fs pr' c hcm with ⟨_, _, hp⟩ | hmod
        · exact hp
        · rcases hmod with ⟨e, p, _, _, _, _, hceq⟩
          subst hceq
          rfl
      have hkey : pr'.1 = pr.1 := by rw [← hcpath', hcpath]
      have hpr'eq : pr' = pr :=
        List.inj_on_of_nodup_map (keys_nodup_pathToState (getAllTxtStates db))
          hpr' hpr hkey
      subst hpr'eq
      rcases mem_emitChange conv fs pr' c hcm with ⟨hflnone, _, _⟩ | hmod
      · rw [hfl] at hflnone
        cases hflnone
      · rcases hmod with ⟨e, p, hfl2, hsc2, hne2, hdiff2, hceq⟩
        have he : e = entry := by
          rw [hfl] at hfl2
          injection hfl2 with h2
          exact h2.symm
        subst he
        subst hceq
        exact ⟨rfl, rfl, by simpa using hsc2.symm, rfl⟩

/-- Mirror filesystem for the scan witness: the tracked file's content now
differs from the stored baseline `h:old`. -/
def fsC6 : List FSEntry := [{ path := "/m/a.txt", content := "new2", mtimeMs := 7 }]

/-- Witness for C6, on the concrete scan scenario: both invariants hold
and the characterisation yields the modified change for the tracked file. -/
theorem scanForChanges_modified_spec_witness :
    WFdb dbC4 ∧ (∀ st ∈ dbC4.note_state, st.supernote_content_hash ≠ some "") ∧
    (∃ c ∈ scanForChanges convW fsC6 dbC4, c.path = "/m/a.txt" ∧
      c.change_type = ChangeType.modified) := by
  have h := scanForChanges_modified_spec convW fsC6 dbC4 (by unfold WFdb; decide) (by decide)
  refine ⟨by unfold WFdb; decide, by decide, ?_⟩
  have hb := (h.2 ("/m/a.txt", rowC4) (by decide)
    { path := "/m/a.txt", content := "new2", mtimeMs := 7 } rfl).1
  exact hb.mpr ⟨"h:old", rfl, by decide⟩
